import Mathlib

/-!
Shallow embedding of the gofsm engine (smallnest/gofsm).

Source files embedded:
  * `src/fsm.go` — `Transition`, `smError` (with its `BadEvent` / `CurrentState`
    accessors), `StateMachine`, `NewStateMachine`, `Trigger`, `findTransMatching`.
  * `src/callback.go` — `EventProcessor`, `DefaultDelegate`,
    `DefaultDelegate.HandleEvent`.

Modelling conventions:
  * Go strings are `String`; the opaque `args ...interface{}` list is `List α`
    for a type parameter `α`; Go's opaque `error` values produced by the
    processor's `Action` are a type parameter `ε`, with `Option ε` standing for
    a possibly-nil `error`.
  * The caller-supplied processor may be stateful in Go (methods on a pointer
    receiver); it is embedded state-passing style over a state type `σ`: each
    hook consumes and returns a `σ`.
  * Callback invocations are observable through an explicit trace: each run of
    `DefaultDelegate.HandleEvent` returns, besides the final processor state
    and its `error` result, the list of processor callbacks it invoked, in
    order, with the exact arguments passed to each.  Likewise `Trigger`
    returns the list of `HandleEvent` invocations it performs on its delegate.
  * `fsm.go`'s `Delegate` interface has a `HandleEvent` method with NO return
    value; a delegate is embedded as a state transformer
    `String → String → String → List α → δ → δ`.  `Trigger` consequently has
    no access to any result of the delegate's work — exactly as in the source,
    where the call `m.delegate.HandleEvent(...)` is a bare statement.
  * `Trigger` is a method on `*StateMachine`; it is embedded as a function
    that also returns the (possibly updated) `StateMachine`, so that the
    absence of mutation of the receiver is a provable statement rather than a
    modelling assumption.
-/

namespace Gofsm

/-- Go `Transition` from `src/fsm.go`: a state transition rule; all fields are
literal string values (`From`, `Event`, `To`, `Action`). -/
structure Transition where
  From : String
  Event : String
  To : String
  Action : String
  deriving DecidableEq, Repr

/-- Go `smError` from `src/fsm.go`: the structured error returned by `Trigger`
when no transition matches; carries the offending event and the current
state. -/
structure smError where
  badEvent : String
  currentState : String
  deriving DecidableEq, Repr

/-- Accessor `func (e smError) BadEvent() string` from `src/fsm.go`. -/
def smError.BadEvent (e : smError) : String := e.badEvent

/-- Accessor `func (e smError) CurrentState() string` from `src/fsm.go`. -/
def smError.CurrentState (e : smError) : String := e.currentState

/-- Go `findTransMatching` from `src/fsm.go` (lines 79–86): scan the receiver's
transition slice in order and return the first rule whose `From` equals
`fromState` and whose `Event` equals `event`; return `none` (Go `nil`) when no
rule matches.  The Go `for _, v := range m.transitions` loop is the structural
recursion on the list. -/
def findTransMatching (transitions : List Transition) (fromState event : String) :
    Option Transition :=
  match transitions with
  | [] => none
  | v :: rest =>
      if v.From = fromState ∧ v.Event = event then some v
      else findTransMatching rest fromState event

/-- A `Delegate` (`src/fsm.go`, lines 25–28): an interface whose single method
`HandleEvent(action, fromState, toState string, args []interface{})` has no
return value.  Embedded as a state transformer over the delegate's private
state `δ`. -/
def Delegate (α δ : Type) : Type :=
  String → String → String → List α → δ → δ

/-- Go `StateMachine` from `src/fsm.go`: a delegate and the configured
transitions.  Both fields are set at construction. -/
structure StateMachine (α δ : Type) where
  delegate : Delegate α δ
  transitions : List Transition

/-- Go `NewStateMachine` from `src/fsm.go`. -/
def NewStateMachine (delegate : Delegate α δ) (transitions : List Transition) :
    StateMachine α δ :=
  { delegate := delegate, transitions := transitions }

/-- One invocation of the delegate's `HandleEvent` method, recording the
exact arguments `Trigger` passed to it. -/
structure DelegateCall (α : Type) where
  action : String
  fromState : String
  toState : String
  args : List α
  deriving DecidableEq, Repr

/-- Go `Trigger` from `src/fsm.go` (lines 66–76), instrumented:

```go
func (m *StateMachine) Trigger(currentState string, event string, args ...interface{}) Error {
    trans := m.findTransMatching(currentState, event)
    if trans == nil {
        return smError{event, currentState}
    }
    if trans.Action != "" {
        m.delegate.HandleEvent(trans.Action, currentState, trans.To, args)
    }
    return nil
}
```

The result quadruple is: the machine after the call (the method body never
assigns to the receiver, so it is returned unchanged), the delegate state
after the call, the list of `HandleEvent` invocations performed, and the
returned `Error` (`none` for Go `nil`). -/
def StateMachine.Trigger (m : StateMachine α δ) (currentState event : String)
    (args : List α) (d : δ) :
    StateMachine α δ × δ × List (DelegateCall α) × Option smError :=
  match findTransMatching m.transitions currentState event with
  | none => (m, d, [], some { badEvent := event, currentState := currentState })
  | some t =>
      if t.Action ≠ "" then
        (m, m.delegate t.Action currentState t.To args d,
          [{ action := t.Action, fromState := currentState,
             toState := t.To, args := args }], none)
      else
        (m, d, [], none)

/-- Go `EventProcessor` from `src/callback.go`: the four hooks `OnExit`,
`Action`, `OnActionFailure`, `OnEnter`.  A Go processor may carry mutable
state, so every hook is embedded as consuming and returning a processor state
`σ`; `Action` additionally returns its `error` result (`Option ε`). -/
structure EventProcessor (α σ ε : Type) where
  OnExit : String → List α → σ → σ
  Action : String → String → String → List α → σ → σ × Option ε
  OnActionFailure : String → String → String → List α → ε → σ → σ
  OnEnter : String → List α → σ → σ

/-- One invocation of a processor callback, recording the exact arguments (and,
for `Action`, the result it produced). -/
inductive CallbackCall (α ε : Type) where
  | onExit (fromState : String) (args : List α)
  | action (action fromState toState : String) (args : List α) (result : Option ε)
  | onActionFailure (action fromState toState : String) (args : List α) (err : ε)
  | onEnter (toState : String) (args : List α)
  deriving DecidableEq, Repr

/-- Whether a recorded callback invocation is an `OnExit` call. -/
def CallbackCall.isOnExit : CallbackCall α ε → Bool
  | .onExit _ _ => true
  | _ => false

/-- Whether a recorded callback invocation is an `Action` call. -/
def CallbackCall.isAction : CallbackCall α ε → Bool
  | .action _ _ _ _ _ => true
  | _ => false

/-- Whether a recorded callback invocation is an `OnActionFailure` call. -/
def CallbackCall.isOnActionFailure : CallbackCall α ε → Bool
  | .onActionFailure _ _ _ _ _ => true
  | _ => false

/-- Whether a recorded callback invocation is an `OnEnter` call. -/
def CallbackCall.isOnEnter : CallbackCall α ε → Bool
  | .onEnter _ _ => true
  | _ => false

/-- Go `DefaultDelegate` from `src/callback.go`: wraps an `EventProcessor` in its
field `P`. -/
structure DefaultDelegate (α σ ε : Type) where
  P : EventProcessor α σ ε

/-- Go `DefaultDelegate.HandleEvent` from `src/callback.go` (lines 22–38),
instrumented with the trace of processor callbacks it invokes:

```go
func (dd *DefaultDelegate) HandleEvent(action string, fromState string, toState string, args []interface{}) error {
    if fromState != toState {
        dd.P.OnExit(fromState, args)
    }
    err := dd.P.Action(action, fromState, toState, args)
    if err != nil {
        dd.P.OnActionFailure(action, fromState, toState, args, err)
        return err
    }
    if fromState != toState {
        dd.P.OnEnter(toState, args)
    }
    return nil
}
```

Returns the final processor state, the ordered invocation trace, and the
function's `error` result (`none` for Go `nil`). -/
def DefaultDelegate.HandleEvent (dd : DefaultDelegate α σ ε)
    (action fromState toState : String) (args : List α) (s : σ) :
    σ × List (CallbackCall α ε) × Option ε :=
  let s1 := if fromState ≠ toState then dd.P.OnExit fromState args s else s
  let exitTrace : List (CallbackCall α ε) :=
    if fromState ≠ toState then [CallbackCall.onExit fromState args] else []
  let actionStep := dd.P.Action action fromState toState args s1
  let preTrace :=
    exitTrace ++ [CallbackCall.action action fromState toState args actionStep.2]
  match actionStep.2 with
  | some err =>
      (dd.P.OnActionFailure action fromState toState args err actionStep.1,
        preTrace ++ [CallbackCall.onActionFailure action fromState toState args err],
        some err)
  | none =>
      if fromState ≠ toState then
        (dd.P.OnEnter toState args actionStep.1,
          preTrace ++ [CallbackCall.onEnter toState args], none)
      else
        (actionStep.1, preTrace, none)

/-- A `DefaultDelegate` used through the `Delegate` interface of `src/fsm.go`.
The interface method has no return value, so the `error` that
`DefaultDelegate.HandleEvent` produces is discarded here — exactly as in the
source, where `Trigger` invokes `m.delegate.HandleEvent(...)` as a bare
statement.  The delegate state is the processor state together with the
accumulated callback trace. -/
def DefaultDelegate.asDelegate (dd : DefaultDelegate α σ ε) :
    Delegate α (σ × List (CallbackCall α ε)) :=
  fun action fromState toState args st =>
    let r := dd.HandleEvent action fromState toState args st.1
    (r.1, st.2 ++ r.2.1)

/-- The full engine path for a machine built over a `DefaultDelegate`:
`NewStateMachine` + `Trigger` from `src/fsm.go` dispatching to
`DefaultDelegate.HandleEvent` from `src/callback.go`.  Starting from processor
state `s` (and an empty trace), the result is the final processor state, the
trace of processor callbacks invoked during the call, and the `Error`
returned by `Trigger`. -/
def triggerDefault (dd : DefaultDelegate α σ ε) (transitions : List Transition)
    (currentState event : String) (args : List α) (s : σ) :
    σ × List (CallbackCall α ε) × Option smError :=
  let r := (NewStateMachine dd.asDelegate transitions).Trigger currentState event args (s, [])
  (r.2.1.1, r.2.1.2, r.2.2.2)

/-- A concrete event processor over a `Nat` state with `String` errors, used to
instantiate the theorems at concrete inputs: each hook bumps the state by a
different amount, and `Action` fails (with error `"boom"`) exactly on the
action label `"badact"`. -/
def demoProcessor : EventProcessor Nat Nat String where
  OnExit := fun _ _ n => n + 1
  Action := fun a _ _ _ n => (n + 10, if a = "badact" then some "boom" else none)
  OnActionFailure := fun _ _ _ _ _ n => n + 100
  OnEnter := fun _ _ n => n + 1000

/-- The `demoProcessor` wrapped in a `DefaultDelegate`. -/
def demoDelegate : DefaultDelegate Nat Nat String := ⟨demoProcessor⟩

/-- A delegate (for the bare `Delegate` interface) that ignores every
invocation. -/
def unitDelegate : Delegate Nat Unit := fun _ _ _ _ d => d

/-- The turnstile transition table from the repository's test, extended with an
empty-action rule, a rule whose action fails under `demoProcessor`, a
self-transition whose action fails, and a duplicate of the `("A", "go")` key
(so that the first-match tie-break is exercised). -/
def demoTransitions : List Transition :=
  [{ From := "Locked", Event := "Coin", To := "Unlocked", Action := "check" },
   { From := "Locked", Event := "Push", To := "Locked", Action := "invalid-push" },
   { From := "Unlocked", Event := "Push", To := "Locked", Action := "pass" },
   { From := "Unlocked", Event := "Coin", To := "Unlocked", Action := "repeat-check" },
   { From := "A", Event := "noop", To := "B", Action := "" },
   { From := "A", Event := "go", To := "B", Action := "badact" },
   { From := "C", Event := "go", To := "C", Action := "badact" },
   { From := "A", Event := "go", To := "Z", Action := "other" }]

/-- A rule returned by `findTransMatching` matches the requested state and
event: its `From` is the requested state and its `Event` the requested
event. -/
lemma findTransMatching_some_fields (ts : List Transition) (f e : String) (t : Transition)
    (h : findTransMatching ts f e = some t) : t.From = f ∧ t.Event = e := by
  induction ts with
  | nil => simp [findTransMatching] at h
  | cons v rest ih =>
      by_cases hv : v.From = f ∧ v.Event = e
      · rw [findTransMatching, if_pos hv] at h
        have hvt := Option.some.inj h
        subst hvt
        exact hv
      · rw [findTransMatching, if_neg hv] at h
        exact ih h

/-- Unfolding of `triggerDefault` on the no-match branch of `Trigger`. -/
lemma triggerDefault_no_match (dd : DefaultDelegate α σ ε) (ts : List Transition)
    (cs ev : String) (args : List α) (s : σ)
    (h : findTransMatching ts cs ev = none) :
    triggerDefault dd ts cs ev args s =
      (s, [], some { badEvent := ev, currentState := cs }) := by
  unfold triggerDefault NewStateMachine StateMachine.Trigger
  simp only [h]

/-- Unfolding of `triggerDefault` when a rule with a non-empty action label
matches: the call reduces to the single `HandleEvent` dispatch, and the
`Error` returned by `Trigger` is `none`. -/
lemma triggerDefault_matched (dd : DefaultDelegate α σ ε) (ts : List Transition)
    (cs ev : String) (args : List α) (s : σ) (t : Transition)
    (h : findTransMatching ts cs ev = some t) (ha : t.Action ≠ "") :
    triggerDefault dd ts cs ev args s =
      ((dd.HandleEvent t.Action cs t.To args s).1,
        (dd.HandleEvent t.Action cs t.To args s).2.1, none) := by
  unfold triggerDefault NewStateMachine StateMachine.Trigger DefaultDelegate.asDelegate
  simp only [h]
  rw [if_pos ha]
  simp

/-- Unfolding of `triggerDefault` when the matched rule has an empty action
label: nothing is dispatched. -/
lemma triggerDefault_empty_action (dd : DefaultDelegate α σ ε) (ts : List Transition)
    (cs ev : String) (args : List α) (s : σ) (t : Transition)
    (h : findTransMatching ts cs ev = some t) (ha : t.Action = "") :
    triggerDefault dd ts cs ev args s = (s, [], none) := by
  unfold triggerDefault NewStateMachine StateMachine.Trigger
  simp only [h, ha]
  simp

/-- Unfolding of `DefaultDelegate.HandleEvent` when the processor's `Action`
reports an error: `OnActionFailure` runs last, the trace is exit (when the
states differ), the failing action, then the failure observer, and the
returned `error` is the action's. -/
lemma HandleEvent_err (dd : DefaultDelegate α σ ε) (a f t : String)
    (args : List α) (s : σ) (err : ε)
    (h : (dd.P.Action a f t args (if f ≠ t then dd.P.OnExit f args s else s)).2 = some err) :
    dd.HandleEvent a f t args s =
      (dd.P.OnActionFailure a f t args err
          (dd.P.Action a f t args (if f ≠ t then dd.P.OnExit f args s else s)).1,
        (if f ≠ t then [CallbackCall.onExit f args] else []) ++
          [CallbackCall.action a f t args (some err),
            CallbackCall.onActionFailure a f t args err],
        some err) := by
  by_cases hft : f = t
  · subst hft
    simp only [ne_eq, not_true_eq_false, if_neg, ite_false] at h ⊢
    unfold DefaultDelegate.HandleEvent
    simp [h]
  · simp only [ne_eq, hft, not_false_iff, ite_true] at h ⊢
    unfold DefaultDelegate.HandleEvent
    simp [h, hft]

/-- Unfolding of `DefaultDelegate.HandleEvent` on a genuine state change whose
action succeeds: the trace is exactly exit, action, enter. -/
lemma HandleEvent_ok_ne (dd : DefaultDelegate α σ ε) (a f t : String)
    (args : List α) (s : σ) (hft : f ≠ t)
    (h : (dd.P.Action a f t args (dd.P.OnExit f args s)).2 = none) :
    dd.HandleEvent a f t args s =
      (dd.P.OnEnter t args (dd.P.Action a f t args (dd.P.OnExit f args s)).1,
        [CallbackCall.onExit f args, CallbackCall.action a f t args none,
          CallbackCall.onEnter t args], none) := by
  unfold DefaultDelegate.HandleEvent
  simp [hft, h]

/-- Trace of `DefaultDelegate.HandleEvent` on a self-transition
(`fromState = toState`): only the action runs, followed by the failure
observer when the action errs; exit and enter are skipped. -/
lemma HandleEvent_self_trace (dd : DefaultDelegate α σ ε) (a f t : String)
    (args : List α) (s : σ) (hft : f = t) :
    (dd.HandleEvent a f t args s).2.1 =
      match (dd.P.Action a f t args s).2 with
      | some err =>
          [CallbackCall.action a f t args (some err),
            CallbackCall.onActionFailure a f t args err]
      | none => [CallbackCall.action a f t args none] := by
  subst hft
  unfold DefaultDelegate.HandleEvent
  simp only [ne_eq, not_true_eq_false, if_neg, ite_false]
  cases hres : (dd.P.Action a f f args s).2 <;> simp [hres]

/-- C3: for every transition table and every `(from, event)` pair,
`findTransMatching` returns the first transition in insertion order whose
`From` equals `from` and whose `Event` equals `event` — equivalently, the head
of the insertion-ordered sublist of matching rules — and `none` (not a default
transition value) when no rule matches both fields.  In particular, when
several transitions share the same `(From, Event)` pair, the earliest-inserted
one is returned. -/
theorem findTransMatching_first_in_order (ts : List Transition) (f e : String) :
    findTransMatching ts f e =
      (ts.filter fun t => decide (t.From = f ∧ t.Event = e)).head? := by
  induction ts with
  | nil => rfl
  | cons v rest ih =>
      by_cases hv : v.From = f ∧ v.Event = e
      · simp [findTransMatching, hv, List.filter_cons]
      · simp [findTransMatching, hv, List.filter_cons, ih]

/-- C2: when no transition has `From` equal to the current state and `Event`
equal to the event, `Trigger` returns the structured error whose `BadEvent`
accessor is the requested event and whose `CurrentState` accessor is the
requested state, and no Handler callback is invoked: the delegate's
`HandleEvent` is never dispatched (empty invocation list, delegate state
untouched), so in particular, over a `DefaultDelegate`, none of the processor
callbacks runs (empty callback trace, processor state untouched). -/
theorem trigger_no_match_error_identity
    (δd : Delegate α δ) (ts : List Transition) (cs ev : String) (args : List α) (d : δ)
    (dd : DefaultDelegate β σ ε) (args2 : List β) (s : σ)
    (h : findTransMatching ts cs ev = none) :
    (NewStateMachine δd ts).Trigger cs ev args d =
        (NewStateMachine δd ts, d, [], some { badEvent := ev, currentState := cs }) ∧
      smError.BadEvent { badEvent := ev, currentState := cs } = ev ∧
      smError.CurrentState { badEvent := ev, currentState := cs } = cs ∧
      triggerDefault dd ts cs ev args2 s =
        (s, [], some { badEvent := ev, currentState := cs }) := by
  refine ⟨?_, rfl, rfl, triggerDefault_no_match dd ts cs ev args2 s h⟩
  unfold NewStateMachine StateMachine.Trigger
  simp only [h]

/-- Witness for C2: the turnstile table has no rule for
`("Locked", "Teleport")`. -/
theorem trigger_no_match_error_identity_witness :
    ((NewStateMachine unitDelegate demoTransitions).Trigger "Locked" "Teleport" [9] () =
        (NewStateMachine unitDelegate demoTransitions, (), [],
          some { badEvent := "Teleport", currentState := "Locked" }) ∧
      smError.BadEvent { badEvent := "Teleport", currentState := "Locked" } = "Teleport" ∧
      smError.CurrentState { badEvent := "Teleport", currentState := "Locked" } = "Locked" ∧
      triggerDefault demoDelegate demoTransitions "Locked" "Teleport" [9] 0 =
        (0, [], some { badEvent := "Teleport", currentState := "Locked" })) :=
  trigger_no_match_error_identity unitDelegate demoTransitions "Locked" "Teleport" [9] ()
    demoDelegate [9] 0 (by decide)

/-- C5: when the matched rule has an empty action label, `Trigger` returns
success (`none`) and invokes no Handler callback of any kind: the delegate's
`HandleEvent` is never dispatched, and over a `DefaultDelegate` no processor
callback runs. -/
theorem trigger_empty_action_no_callbacks
    (δd : Delegate α δ) (ts : List Transition) (cs ev : String) (args : List α) (d : δ)
    (dd : DefaultDelegate β σ ε) (args2 : List β) (s : σ) (t : Transition)
    (h : findTransMatching ts cs ev = some t) (ha : t.Action = "") :
    (NewStateMachine δd ts).Trigger cs ev args d = (NewStateMachine δd ts, d, [], none) ∧
      triggerDefault dd ts cs ev args2 s = (s, [], none) := by
  refine ⟨?_, triggerDefault_empty_action dd ts cs ev args2 s t h ha⟩
  unfold NewStateMachine StateMachine.Trigger
  simp only [h, ha]
  simp

/-- Witness for C5: the rule `("A", "noop") → "B"` of the demo table carries an
empty action label. -/
theorem trigger_empty_action_no_callbacks_witness :
    ((NewStateMachine unitDelegate demoTransitions).Trigger "A" "noop" [7] () =
        (NewStateMachine unitDelegate demoTransitions, (), [], none) ∧
      triggerDefault demoDelegate demoTransitions "A" "noop" [7] 0 = (0, [], none)) :=
  trigger_empty_action_no_callbacks unitDelegate demoTransitions "A" "noop" [7] ()
    demoDelegate [7] 0 { From := "A", Event := "noop", To := "B", Action := "" }
    (by decide) (by decide)

/-- C8: `Trigger` leaves the `StateMachine` itself unchanged (same delegate and
transition table), and the `args` list it passes to the delegate's
`HandleEvent` is the caller's list forwarded verbatim: the invocation list is
either empty or a single `HandleEvent` call whose `args` component is exactly
the caller's list. -/
theorem trigger_frame (m : StateMachine α δ) (cs ev : String) (args : List α) (d : δ) :
    (m.Trigger cs ev args d).1 = m ∧
      ((m.Trigger cs ev args d).2.2.1 = [] ∨
        ∃ a f t, (m.Trigger cs ev args d).2.2.1 =
          [{ action := a, fromState := f, toState := t, args := args }]) := by
  unfold StateMachine.Trigger
  cases h : findTransMatching m.transitions cs ev with
  | none => simp
  | some t =>
      by_cases ha : t.Action = ""
      · simp [ha]
      · refine ⟨by simp [ha], Or.inr ⟨t.Action, cs, t.To, by simp [ha]⟩⟩

/-- C9: whenever a matching transition exists, `Trigger` returns `nil`
(success) — irrespective of the delegate's behaviour, since the `Delegate`
interface's `HandleEvent` has no return value and `Trigger` discards the
delegate's outcome.  The no-matching-transition error is therefore the only
non-nil value `Trigger` ever returns. -/
theorem trigger_nil_on_match (m : StateMachine α δ) (cs ev : String)
    (args : List α) (d : δ) (t : Transition)
    (h : findTransMatching m.transitions cs ev = some t) :
    (m.Trigger cs ev args d).2.2.2 = none := by
  unfold StateMachine.Trigger
  simp only [h]
  by_cases ha : t.Action = "" <;> simp [ha]

/-- Witness for C9, at a machine over a `DefaultDelegate` whose action even
fails: `Trigger` still returns `nil`. -/
theorem trigger_nil_on_match_witness :
    ((NewStateMachine (DefaultDelegate.asDelegate demoDelegate) demoTransitions).Trigger
        "A" "go" [1] (0, [])).2.2.2 = none :=
  trigger_nil_on_match (NewStateMachine (DefaultDelegate.asDelegate demoDelegate) demoTransitions)
    "A" "go" [1] (0, [])
    { From := "A", Event := "go", To := "B", Action := "badact" } (by decide)

/-- C10: `DefaultDelegate.HandleEvent` invokes the processor's `Action`
exactly once on every call — including when the action label is the empty
string and when `fromState` equals `toState`: the empty-action short-circuit
lives only in `Trigger`, so a caller invoking `HandleEvent` directly with an
empty label still has `Action` run. -/
theorem handleEvent_invokes_action_exactly_once (dd : DefaultDelegate α σ ε)
    (a f t : String) (args : List α) (s : σ) :
    ((dd.HandleEvent a f t args s).2.1).countP CallbackCall.isAction = 1 := by
  by_cases hft : f = t
  · rw [HandleEvent_self_trace dd a f t args s hft]
    cases hres : (dd.P.Action a f t args s).2 <;>
      simp [hres, CallbackCall.isAction, List.countP_cons, List.countP_nil]
  · cases hres : (dd.P.Action a f t args (dd.P.OnExit f args s)).2 with
    | none =>
        rw [HandleEvent_ok_ne dd a f t args s hft hres]
        simp [CallbackCall.isAction, List.countP_cons, List.countP_nil]
    | some err =>
        have h' : (dd.P.Action a f t args
            (if f ≠ t then dd.P.OnExit f args s else s)).2 = some err := by
          rw [if_pos hft]; exact hres
        rw [HandleEvent_err dd a f t args s err h']
        simp [hft, CallbackCall.isAction, List.countP_cons, List.countP_nil]

/-- C4: a `Trigger` call matching a self-transition rule (`From = To`) never
invokes `OnExit` and never invokes `OnEnter`; of the three phase callbacks
only `Action` runs, and only when the rule's action label is non-empty. -/
theorem self_transition_suppresses_exit_enter (dd : DefaultDelegate α σ ε)
    (ts : List Transition) (cs ev : String) (args : List α) (s : σ) (t : Transition)
    (h : findTransMatching ts cs ev = some t) (hself : t.From = t.To) :
    ((triggerDefault dd ts cs ev args s).2.1).countP CallbackCall.isOnExit = 0 ∧
      ((triggerDefault dd ts cs ev args s).2.1).countP CallbackCall.isOnEnter = 0 ∧
      ((triggerDefault dd ts cs ev args s).2.1).countP CallbackCall.isAction =
        (if t.Action = "" then 0 else 1) := by
  obtain ⟨hfrom, -⟩ := findTransMatching_some_fields ts cs ev t h
  by_cases ha : t.Action = ""
  · rw [triggerDefault_empty_action dd ts cs ev args s t h ha]
    simp [ha]
  · have hcs : cs = t.To := by rw [← hfrom, hself]
    rw [triggerDefault_matched dd ts cs ev args s t h ha]
    have htr := HandleEvent_self_trace dd t.Action cs t.To args s hcs
    cases hres : (dd.P.Action t.Action cs t.To args s).2 with
    | none =>
        rw [hres] at htr
        simp only [htr]
        simp [ha, CallbackCall.isOnExit, CallbackCall.isOnEnter, CallbackCall.isAction,
          List.countP_cons, List.countP_nil]
    | some err =>
        rw [hres] at htr
        simp only [htr]
        simp [ha, CallbackCall.isOnExit, CallbackCall.isOnEnter, CallbackCall.isAction,
          List.countP_cons, List.countP_nil]

/-- Witness for C4: the self-transition `("C", "go") → "C"` with (failing)
action `"badact"`. -/
theorem self_transition_suppresses_exit_enter_witness :
    (((triggerDefault demoDelegate demoTransitions "C" "go" [4] 0).2.1).countP
          CallbackCall.isOnExit = 0 ∧
      ((triggerDefault demoDelegate demoTransitions "C" "go" [4] 0).2.1).countP
          CallbackCall.isOnEnter = 0 ∧
      ((triggerDefault demoDelegate demoTransitions "C" "go" [4] 0).2.1).countP
          CallbackCall.isAction =
        (if ({ From := "C", Event := "go", To := "C", Action := "badact" } :
            Transition).Action = "" then 0 else 1)) :=
  self_transition_suppresses_exit_enter demoDelegate demoTransitions "C" "go" [4] 0
    { From := "C", Event := "go", To := "C", Action := "badact" } (by decide) (by decide)

/-- C6: when the processor's `Action` returns an error in a
`DefaultDelegate.HandleEvent` call, `HandleEvent` invokes `OnActionFailure`
exactly once — with the same action, fromState, toState, args and that same
error, after the action and immediately before returning — and `HandleEvent`
returns that error (its final processor state is the failure observer's
output). -/
theorem handleEvent_failure_observer (dd : DefaultDelegate α σ ε) (a f t : String)
    (args : List α) (s : σ) (err : ε)
    (h : (dd.P.Action a f t args (if f ≠ t then dd.P.OnExit f args s else s)).2 = some err) :
    (dd.HandleEvent a f t args s).2.2 = some err ∧
      (dd.HandleEvent a f t args s).2.1 =
        (if f ≠ t then [CallbackCall.onExit f args] else []) ++
          [CallbackCall.action a f t args (some err),
            CallbackCall.onActionFailure a f t args err] ∧
      ((dd.HandleEvent a f t args s).2.1).countP CallbackCall.isOnActionFailure = 1 ∧
      (dd.HandleEvent a f t args s).1 =
        dd.P.OnActionFailure a f t args err
          (dd.P.Action a f t args (if f ≠ t then dd.P.OnExit f args s else s)).1 := by
  rw [HandleEvent_err dd a f t args s err h]
  refine ⟨rfl, rfl, ?_, rfl⟩
  by_cases hft : f = t <;>
    simp [hft, CallbackCall.isOnActionFailure, List.countP_cons, List.countP_nil]

/-- Witness for C6: a direct `HandleEvent` call whose action label makes
`demoProcessor` fail with `"boom"`. -/
theorem handleEvent_failure_observer_witness :
    ((demoDelegate.HandleEvent "badact" "X" "Y" [2] 0).2.2 = some "boom" ∧
      (demoDelegate.HandleEvent "badact" "X" "Y" [2] 0).2.1 =
        (if "X" ≠ "Y" then [CallbackCall.onExit "X" [2]] else []) ++
          [CallbackCall.action "badact" "X" "Y" [2] (some "boom"),
            CallbackCall.onActionFailure "badact" "X" "Y" [2] "boom"] ∧
      ((demoDelegate.HandleEvent "badact" "X" "Y" [2] 0).2.1).countP
          CallbackCall.isOnActionFailure = 1 ∧
      (demoDelegate.HandleEvent "badact" "X" "Y" [2] 0).1 =
        demoDelegate.P.OnActionFailure "badact" "X" "Y" [2] "boom"
          (demoDelegate.P.Action "badact" "X" "Y" [2]
            (if "X" ≠ "Y" then demoDelegate.P.OnExit "X" [2] 0 else 0)).1) :=
  handleEvent_failure_observer demoDelegate "badact" "X" "Y" [2] 0 "boom" (by decide)

/-- C7: for every successful `Trigger` call on a non-self transition
(`From ≠ To`, non-empty action) — successful meaning the transition completes,
i.e. the action phase of the call reports no error — the callback sequence
within that call is exactly `OnExit`, then `Action`, then `OnEnter`: each of
the three is invoked exactly once, `OnExit` completes fully before `Action`
begins, and `Action` completes fully before `OnEnter` begins.  (Note the
engine's return value cannot serve as the success criterion: by C9 `Trigger`
returns `nil` for every matched rule.) -/
theorem successful_non_self_callback_order (dd : DefaultDelegate α σ ε)
    (ts : List Transition) (cs ev : String) (args : List α) (s : σ) (t : Transition)
    (h : findTransMatching ts cs ev = some t) (ha : t.Action ≠ "")
    (hne : t.From ≠ t.To)
    (hok : (dd.P.Action t.Action cs t.To args (dd.P.OnExit cs args s)).2 = none) :
    (triggerDefault dd ts cs ev args s).2.1 =
        [CallbackCall.onExit cs args,
          CallbackCall.action t.Action cs t.To args none,
          CallbackCall.onEnter t.To args] ∧
      (triggerDefault dd ts cs ev args s).2.2 = none := by
  obtain ⟨hfrom, -⟩ := findTransMatching_some_fields ts cs ev t h
  have hcs : cs ≠ t.To := by rw [← hfrom]; exact hne
  rw [triggerDefault_matched dd ts cs ev args s t h ha]
  rw [HandleEvent_ok_ne dd t.Action cs t.To args s hcs hok]
  exact ⟨rfl, rfl⟩

/-- Witness for C7: the turnstile transition `("Locked", "Coin") → "Unlocked"`
with action `"check"`, which succeeds under `demoProcessor`. -/
theorem successful_non_self_callback_order_witness :
    ((triggerDefault demoDelegate demoTransitions "Locked" "Coin" [6] 0).2.1 =
        [CallbackCall.onExit "Locked" [6],
          CallbackCall.action "check" "Locked" "Unlocked" [6] none,
          CallbackCall.onEnter "Unlocked" [6]] ∧
      (triggerDefault demoDelegate demoTransitions "Locked" "Coin" [6] 0).2.2 = none) :=
  successful_non_self_callback_order demoDelegate demoTransitions "Locked" "Coin" [6] 0
    { From := "Locked", Event := "Coin", To := "Unlocked", Action := "check" }
    (by decide) (by decide) (by decide) (by decide)

/-- Counterexample to C1: at this concrete machine the rule
`("A", "go") → "B"` matches with the non-empty action `"badact"`, the
processor's `Action` returns the error `"boom"` — visible both in the trace
entry and in `DefaultDelegate.HandleEvent`'s return value — yet `Trigger`
returns `none` (Go `nil`), not the action's error.  So the error value
returned from `Trigger` does not equal the error value returned by the Action
phase. -/
theorem trigger_discards_action_error_cex :
    ((triggerDefault demoDelegate demoTransitions "A" "go" [5] 0).2.2 = none ∧
      CallbackCall.action "badact" "A" "B" [5] (some "boom") ∈
        (triggerDefault demoDelegate demoTransitions "A" "go" [5] 0).2.1 ∧
      (demoDelegate.HandleEvent "badact" "A" "B" [5] 0).2.2 = some "boom") := by
  decide

/-- C1 as amended: when the matched rule has a non-empty action label and the
Action phase returns an error during the `Trigger` call, `OnEnter` is never
invoked during that call and the error is returned by
`DefaultDelegate.HandleEvent`; `Trigger` itself, however, returns `nil` — the
action's error is not propagated, because the `Delegate` interface's
`HandleEvent` has no return value and `Trigger` discards the delegate's
outcome. -/
theorem action_error_skips_enter_trigger_nil (dd : DefaultDelegate α σ ε)
    (ts : List Transition) (cs ev : String) (args : List α) (s : σ)
    (t : Transition) (err : ε)
    (h : findTransMatching ts cs ev = some t) (ha : t.Action ≠ "")
    (herr : (dd.P.Action t.Action cs t.To args
        (if cs ≠ t.To then dd.P.OnExit cs args s else s)).2 = some err) :
    ((triggerDefault dd ts cs ev args s).2.1).countP CallbackCall.isOnEnter = 0 ∧
      (dd.HandleEvent t.Action cs t.To args s).2.2 = some err ∧
      (triggerDefault dd ts cs ev args s).2.2 = none := by
  rw [triggerDefault_matched dd ts cs ev args s t h ha]
  rw [HandleEvent_err dd t.Action cs t.To args s err herr]
  refine ⟨?_, rfl, rfl⟩
  by_cases hft : cs = t.To <;>
    simp [hft, CallbackCall.isOnEnter, List.countP_cons, List.countP_nil]

/-- Witness for the amended C1, at the failing rule `("A", "go") → "B"` with
action `"badact"`. -/
theorem action_error_skips_enter_trigger_nil_witness :
    (((triggerDefault demoDelegate demoTransitions "A" "go" [5] 0).2.1).countP
          CallbackCall.isOnEnter = 0 ∧
      (demoDelegate.HandleEvent "badact" "A" "B" [5] 0).2.2 = some "boom" ∧
      (triggerDefault demoDelegate demoTransitions "A" "go" [5] 0).2.2 = none) :=
  action_error_skips_enter_trigger_nil demoDelegate demoTransitions "A" "go" [5] 0
    { From := "A", Event := "go", To := "B", Action := "badact" } "boom"
    (by decide) (by decide) (by decide)

end Gofsm
